import Mathlib

/-!
Shallow embedding of the per-frame corner-tracking core of
`src/rectangle_tracker.py` (the body of `run_main` from the corner labelling
at line 162 through the homography request at line 312, plus the cross-frame
state updates at lines 337-340), together with the helper functions
`get_edge_lengths`, `cyclist` and `_order_dist` defined inside it.

Modelling conventions:

* Image and plane points are pairs of real numbers (`Pt`).  The Python code
  computes with numpy float32/float64; we model the arithmetic over `ℝ`.
* `numpy.linalg.norm` of a 2-vector is `Real.sqrt (x^2 + y^2)`; of a 4x2
  difference array it is the Frobenius norm, i.e. the square root of the sum
  of all eight squared entries.
* External OpenCV primitives that the script calls are modelled from their
  documented behaviour: `cv2.perspectiveTransform` (projective application of
  a 3x3 matrix with division by the third homogeneous coordinate),
  `cv2.transform` with a 2x3 matrix (affine application) or a 2x2 matrix
  (linear application), `cv2.getAffineTransform` (the exact affine map sending
  three source points to three destination points, obtained by Cramer's rule),
  and `cv2.getRotationMatrix2D` (whose documented matrix is
  `[[a, b, (1-a)cx - b*cy], [-b, a, b*cx + (1-a)cy]]` with
  `a = scale*cos(angle*pi/180)`, `b = scale*sin(angle*pi/180)`; the angle
  argument is interpreted by OpenCV in degrees).  `cv2.findHomography` is an
  external solver; the embedding records the exact point lists the script
  passes to it and threads the solver as an explicit function parameter.
* Real divisions by zero (degenerate inputs on which numpy/OpenCV would raise
  or produce non-finite floats) yield Lean's junk value `0`; no theorem below
  depends on such inputs.
* Python exceptions are modelled with `Except`: the tuple comparison inside
  `min(_order_dist(k) for k in range(4))` raises `ValueError` ("truth value of
  an array ... is ambiguous") whenever two distances compare equal, because
  the tuples' second components are numpy arrays, and the final `else` of the
  obstruction dispatch raises `Exception("This should never happen.")`.
-/

/-- A 2-D point (image or canonical-plane pixel coordinates). -/
abbrev Pt : Type := ℝ × ℝ

/-- Squared Euclidean norm of a 2-vector. -/
def sqNorm (p : Pt) : ℝ := p.1 ^ 2 + p.2 ^ 2

/-- `numpy.linalg.norm` of a 2-vector. -/
noncomputable def vecNorm (p : Pt) : ℝ := Real.sqrt (sqNorm p)

/-- Dot product of two 2-vectors (`np.dot` on 1-D arrays). -/
def dotPt (a b : Pt) : ℝ := a.1 * b.1 + a.2 * b.2

/-- Componentwise division of a 2-vector by a scalar (numpy broadcasting). -/
noncomputable def divPt (p : Pt) (s : ℝ) : Pt := (p.1 / s, p.2 / s)

/-- A 3x3 matrix, as used for homographies (`cv2.findHomography` output). -/
structure Mat3 where
  m00 : ℝ
  m01 : ℝ
  m02 : ℝ
  m10 : ℝ
  m11 : ℝ
  m12 : ℝ
  m20 : ℝ
  m21 : ℝ
  m22 : ℝ

/-- The identity 3x3 matrix (used only to instantiate the external solver in
concrete runs). -/
def idMat3 : Mat3 := ⟨1, 0, 0, 0, 1, 0, 0, 0, 1⟩

/-- A 2x3 matrix `[[a00, a01, a02], [a10, a11, a12]]`, as returned by
`cv2.getAffineTransform` and `cv2.getRotationMatrix2D`. -/
structure Mat23 where
  a00 : ℝ
  a01 : ℝ
  a02 : ℝ
  a10 : ℝ
  a11 : ℝ
  a12 : ℝ

/-- A 2x2 matrix `[[a, b], [c, d]]` (the slice `rotat[:, :2]`). -/
structure Mat2 where
  a : ℝ
  b : ℝ
  c : ℝ
  d : ℝ

/-- `persTransform(pts, H)` from the source: applies the perspective
transform `H` to each point (`cv2.perspectiveTransform`). -/
noncomputable def persTransform (pts : List Pt) (H : Mat3) : List Pt :=
  pts.map fun p =>
    let w := H.m20 * p.1 + H.m21 * p.2 + H.m22
    ((H.m00 * p.1 + H.m01 * p.2 + H.m02) / w,
     (H.m10 * p.1 + H.m11 * p.2 + H.m12) / w)

/-- `affTransform(pts, A)` from the source with a 2x3 affine matrix
(`cv2.transform`). -/
def affTransform23 (pts : List Pt) (A : Mat23) : List Pt :=
  pts.map fun p =>
    (A.a00 * p.1 + A.a01 * p.2 + A.a02, A.a10 * p.1 + A.a11 * p.2 + A.a12)

/-- A 2x2 matrix applied to a column vector, `M v`. -/
def matVec (M : Mat2) (v : Pt) : Pt :=
  (M.a * v.1 + M.b * v.2, M.c * v.1 + M.d * v.2)

/-- `affTransform(pts, M)` from the source when `M` is the 2x2 slice
`rotat[:, :2]`: `cv2.transform` then applies `M` linearly, `dst = M src`. -/
def affTransform2 (pts : List Pt) (M : Mat2) : List Pt :=
  pts.map fun p => matVec M p

/-- `np.dot(u, M)` for a 1-D `u` and 2x2 `M`: the row-vector product. -/
def rowVecMul (u : Pt) (M : Mat2) : Pt :=
  (u.1 * M.a + u.2 * M.c, u.1 * M.b + u.2 * M.d)

/-- `np.linalg.inv` of a 2x2 matrix, by the adjugate formula. -/
noncomputable def inv2 (M : Mat2) : Mat2 :=
  let det := M.a * M.d - M.b * M.c
  ⟨M.d / det, -M.b / det, -M.c / det, M.a / det⟩

/-- `cv2.getRotationMatrix2D(center, angle, scale)` modelled from the OpenCV
documentation; note OpenCV interprets `angle` in degrees, hence the
`* π / 180` in the trigonometric arguments. -/
noncomputable def getRotationMatrix2D (center : Pt) (angle scale : ℝ) : Mat23 :=
  let alpha := scale * Real.cos (angle * Real.pi / 180)
  let beta := scale * Real.sin (angle * Real.pi / 180)
  ⟨alpha, beta, (1 - alpha) * center.1 - beta * center.2,
   -beta, alpha, beta * center.1 + (1 - alpha) * center.2⟩

/-- The slice `rotat[:, :2]`: drops the translation column of a 2x3 matrix,
keeping only its linear part. -/
def sliceCols2 (A : Mat23) : Mat2 := ⟨A.a00, A.a01, A.a10, A.a11⟩

/-- `cv2.getAffineTransform(src, dst)` for three point pairs: the unique
affine map sending `src[i]` to `dst[i]`, written out via Cramer's rule.  On
collinear `src` OpenCV raises; here the zero denominator yields junk. -/
noncomputable def getAffineTransform (src dst : List Pt) : Mat23 :=
  let s0 := src.getD 0 (0, 0)
  let s1 := src.getD 1 (0, 0)
  let s2 := src.getD 2 (0, 0)
  let d0 := dst.getD 0 (0, 0)
  let d1 := dst.getD 1 (0, 0)
  let d2 := dst.getD 2 (0, 0)
  let det := s0.1 * (s1.2 - s2.2) + s1.1 * (s2.2 - s0.2) + s2.1 * (s0.2 - s1.2)
  ⟨(d0.1 * (s1.2 - s2.2) + d1.1 * (s2.2 - s0.2) + d2.1 * (s0.2 - s1.2)) / det,
   (d0.1 * (s2.1 - s1.1) + d1.1 * (s0.1 - s2.1) + d2.1 * (s1.1 - s0.1)) / det,
   (d0.1 * (s1.1 * s2.2 - s2.1 * s1.2) + d1.1 * (s2.1 * s0.2 - s0.1 * s2.2)
      + d2.1 * (s0.1 * s1.2 - s1.1 * s0.2)) / det,
   (d0.2 * (s1.2 - s2.2) + d1.2 * (s2.2 - s0.2) + d2.2 * (s0.2 - s1.2)) / det,
   (d0.2 * (s2.1 - s1.1) + d1.2 * (s0.1 - s2.1) + d2.2 * (s1.1 - s0.1)) / det,
   (d0.2 * (s1.1 * s2.2 - s2.1 * s1.2) + d1.2 * (s2.1 * s0.2 - s0.1 * s2.2)
      + d2.2 * (s0.1 * s1.2 - s1.1 * s0.2)) / det⟩

/- ## User / internal parameters of the script (lines 26, 32-33) -/

/-- `PAPER_RATIO = 11/8.5` (height/width of the paper). -/
noncomputable def paperRatioHW : ℝ := 11 / 8.5

/-- `tol_corner_movement = 1`. -/
def tol_corner_movement : ℝ := 1

/-- `obst_tol = 10`. -/
def obst_tol : ℝ := 10

/- ## Corner labelling (lines 162-172)

`tr_index = np.argmin(c[0] + c[1] for c in corners)` passes a *generator* to
`np.argmin`.  `np.asarray` does not iterate a generator: it produces a 0-d
object array holding the generator itself, and `argmin` of a 0-d array is
`0`.  The sums `c[0] + c[1]` are therefore never compared and the result is
always index 0. -/

/-- The value of `tr_index` computed at line 165: always `0` because
`np.argmin` is applied to a generator expression (see section comment). -/
def trIndex (corners : List Pt) : ℕ := 0

/-- Lines 166-172: label the raw candidate corners.  With `i = trIndex`,
`tl = corners[i]`, `bl = corners[(i-1) % 4]`, `br = corners[(i-2) % 4]`,
`tr = corners[(i-3) % 4]` (Python's `%` on negatives equals adding 4), and
the reformatted list is `[tl, bl, br, tr]`. -/
def labelCorners (corners : List Pt) : List Pt :=
  [corners.getD (trIndex corners % 4) (0, 0),
   corners.getD ((trIndex corners + 3) % 4) (0, 0),
   corners.getD ((trIndex corners + 2) % 4) (0, 0),
   corners.getD ((trIndex corners + 1) % 4) (0, 0)]

/- ## Geometry helpers from inside `run_main` -/

/-- `get_edge_lengths(topl, botl, botr, topr)` (lines 183-187): edge lengths
in order top, right, bottom, left. -/
noncomputable def get_edge_lengths (topl botl botr topr : Pt) : List ℝ :=
  [vecNorm (topr - topl), vecNorm (topr - botr),
   vecNorm (botr - botl), vecNorm (botl - topl)]

/-- `get_edge_lengths(*corners)` for a corner list `[tl, bl, br, tr]`. -/
noncomputable def edgeLengthsOf (c : List Pt) : List ℝ :=
  get_edge_lengths (c.getD 0 (0, 0)) (c.getD 1 (0, 0)) (c.getD 2 (0, 0))
    (c.getD 3 (0, 0))

/-- `cyclist(lst, k)` (lines 200-203): cyclic rotation of a list by `k`. -/
def cyclist (l : List Pt) (k : ℕ) : List Pt :=
  if k = 0 then l
  else (List.range l.length).map fun i => l.getD ((i + k) % l.length) (0, 0)

/-- Sum of all squared entries of the 4x2 difference array
`expected_corners - offset_corners`; `np.linalg.norm` of that array is the
Frobenius norm, i.e. `Real.sqrt` of this sum. -/
def frobSq (a b : List Pt) : ℝ :=
  ((a.zip b).map fun pq => (pq.1.1 - pq.2.1) ^ 2 + (pq.1.2 - pq.2.2) ^ 2).sum

/-- The distance component of `_order_dist(offset)` (lines 205-207):
`norm(expected_corners - offset_corners)` where
`offset_corners = corners[cyclist(range(4), offset)]`, which for a 4-element
list equals `cyclist corners offset`. -/
noncomputable def orderDist (expected corners : List Pt) (k : ℕ) : ℝ :=
  Real.sqrt (frobSq expected (cyclist corners k))

/-- Python exceptions raised inside the frame loop. -/
inductive PyExn : Type where
  /-- `ValueError` from evaluating a numpy array in boolean context: raised
  by the tuple comparison inside `min(...)` when two distances are equal. -/
  | ambiguousTruth : PyExn
  /-- `Exception("This should never happen.")` (line 303). -/
  | neverHappen : PyExn
deriving DecidableEq, Repr

open scoped Classical

/-- One comparison step of Python's `min` over `(distance, corners)` tuples:
a new item replaces the running best iff `item < best`.  Tuple `<` first
tests `item.1 == best.1`; on equality CPython moves to the second components,
whose numpy-array equality test raises `ValueError` (truth value of an array
is ambiguous), so an exact distance tie with the running best crashes. -/
noncomputable def pyMinStep (best : Except PyExn (ℝ × List Pt))
    (item : ℝ × List Pt) : Except PyExn (ℝ × List Pt) :=
  match best with
  | .error e => .error e
  | .ok b =>
      if item.1 = b.1 then .error .ambiguousTruth
      else if item.1 < b.1 then .ok item
      else .ok b

/-- `min(_order_dist(k) for k in range(4))[1]` (line 209): the correspondence
resolution.  Returns the rotated corner list of the tuple selected by
Python's `min`, or the `ValueError` raised on an exact distance tie. -/
noncomputable def resolveOrder (expected corners : List Pt) :
    Except PyExn (List Pt) :=
  (List.foldl pyMinStep
      (Except.ok (orderDist expected corners 0, cyclist corners 0))
      [(orderDist expected corners 1, cyclist corners 1),
       (orderDist expected corners 2, cyclist corners 2),
       (orderDist expected corners 3, cyclist corners 3)]).map Prod.snd

/- ## Obstruction classification (lines 211-225) -/

/-- Lines 215-217: one flag per edge (top, right, bottom, left), true iff
`abs(l0 - l1) > obst_tol` where `(l1, l0)` ranges over
`zip(new_lengths, expected_lengths)`. -/
def edgeBads (newLengths expectedLengths : List ℝ) : List Prop :=
  (newLengths.zip expectedLengths).map fun p => |p.2 - p.1| > obst_tol

/-- Lines 218-223: a corner is flagged obstructed iff both of its adjacent
edges are bad; output order `[tl, bl, br, tr]` with
`tl = top ∧ left`, `bl = bottom ∧ left`, `br = bottom ∧ right`,
`tr = top ∧ right`. -/
def cornerFlags (top rgt bot lft : Prop) : List Prop :=
  [top ∧ lft, bot ∧ lft, bot ∧ rgt, top ∧ rgt]

/-- The obstruction flags `is_obstr` computed for (already reordered)
`corners` against the expected corner set (whose edge lengths are
`expected_lengths`, line 197). -/
noncomputable def is_obstrOf (corners expected : List Pt) : List Prop :=
  let bads := edgeBads (edgeLengthsOf corners) (edgeLengthsOf expected)
  cornerFlags (bads.getD 0 False) (bads.getD 1 False) (bads.getD 2 False)
    (bads.getD 3 False)

/-- `sum` of a Python list of booleans. -/
noncomputable def countTrue (l : List Prop) : ℕ :=
  l.foldr (fun p n => if p then n + 1 else n) 0

/-- `ob_corner_ct = sum(is_obstr)` (line 225). -/
noncomputable def obCount (corners expected : List Pt) : ℕ :=
  countTrue (is_obstrOf corners expected)

/- ## Movement gate data (lines 229-230) -/

/-- `diffs = [norm(c - ec) for c, ec in zip(corners, expected_corners)]`. -/
noncomputable def diffsOf (corners expected : List Pt) : List ℝ :=
  (corners.zip expected).map fun p => vecNorm (p.1 - p.2)

/-- `sum(has_moved)` where `has_moved = [d > tol_corner_movement for d in
diffs]`. -/
noncomputable def movedCount (corners expected : List Pt) : ℕ :=
  countTrue ((diffsOf corners expected).map fun d => d > tol_corner_movement)

/-- `np.argmax` over a list: index of the first occurrence of the maximum. -/
noncomputable def argmaxFrom (i bi : ℕ) (bv : ℝ) : List ℝ → ℕ
  | [] => bi
  | x :: xs =>
      if bv < x then argmaxFrom (i + 1) i x xs else argmaxFrom (i + 1) bi bv xs

/-- `np.argmax(diffs)` (line 241). -/
noncomputable def argmaxIdx : List ℝ → ℕ
  | [] => 0
  | x :: xs => argmaxFrom 1 0 x xs

/- ## Flag-driven list operations (lines 249-253, 271, 296) -/

/-- `[c for c, b in zip(pts, flags) if not b]`. -/
noncomputable def unflagged (pts : List Pt) (flags : List Prop) : List Pt :=
  (pts.zip flags).foldr (fun pf acc => if pf.2 then acc else pf.1 :: acc) []

/-- `[c for c, b in zip(pts, flags) if b]`. -/
noncomputable def flagged (pts : List Pt) (flags : List Prop) : List Pt :=
  (pts.zip flags).foldr (fun pf acc => if pf.2 then pf.1 :: acc else acc) []

/-- `corners[np.ix_(ob_indices)] = new_ob`: replace the flagged positions of
`corners`, in index order, by the entries of `vals`. -/
noncomputable def scatter : List Pt → List Prop → List Pt → List Pt
  | [], _, _ => []
  | c :: cs, [], _ => c :: cs
  | c :: cs, f :: fs, vals =>
      if f then vals.getD 0 (0, 0) :: scatter cs fs (vals.drop 1)
      else c :: scatter cs fs vals

/- ## Reconstruction paths (lines 263-296) -/

/-- The 1-obstructed path (lines 263-271), at the canonical-plane level:
solve the affine transform from the three unobstructed expected plane points
to the three found plane points, apply it to the obstructed corners' expected
plane positions, and map back to image space through `old_inv_homog`. -/
noncomputable def reconstruct1pp (exp_unob_pp new_unob_pp exp_ob_pp : List Pt)
    (oldInvHomog : Mat3) : List Pt :=
  let A := getAffineTransform exp_unob_pp new_unob_pp
  persTransform (affTransform23 exp_ob_pp A) oldInvHomog

/-- The 2-obstructed path (lines 273-296), at the canonical-plane level.
`p1, q1` are the found unobstructed plane points, `p0, q0` the expected ones;
`angle = acos(np.dot(u0, u1))` is the unsigned angle between the unit
vectors; `rotat` is `cv2.getRotationMatrix2D(tuple(p1), angle, 1)[:, :2]`
(the slice keeps only the 2x2 linear block, discarding the translation
column that would have centred the rotation at `p1`); the sign check
compares `norm(np.dot(u0, rotat) - u1)` with `norm(np.dot(u1, rotat) - u0)`
and on `>` replaces `rotat` by its matrix inverse; finally the expected
obstructed plane points are translated by `p1 - p0`, multiplied by `rotat`
(`cv2.transform` with a 2x2 matrix applies it linearly), and mapped back to
image space through `old_inv_homog`. -/
noncomputable def reconstruct2pp (exp_unob_pp new_unob_pp exp_ob_pp : List Pt)
    (oldInvHomog : Mat3) : List Pt :=
  let p1 := new_unob_pp.getD 0 (0, 0)
  let q1 := new_unob_pp.getD 1 (0, 0)
  let p0 := exp_unob_pp.getD 0 (0, 0)
  let q0 := exp_unob_pp.getD 1 (0, 0)
  let u0 := divPt (q0 - p0) (vecNorm (q0 - p0))
  let u1 := divPt (q1 - p1) (vecNorm (q1 - p1))
  let angle := Real.arccos (dotPt u0 u1)
  let trans := p1 - p0
  let rotat0 := sliceCols2 (getRotationMatrix2D p1 angle 1)
  let rotat :=
    if vecNorm (rowVecMul u0 rotat0 - u1) > vecNorm (rowVecMul u1 rotat0 - u0)
    then inv2 rotat0 else rotat0
  let new_ob_pp := affTransform2 (exp_ob_pp.map fun p => p + trans) rotat
  persTransform new_ob_pp oldInvHomog

/- ## The per-frame pipeline (lines 162-312 and 337-340) -/

/-- The cross-frame state carried by the loop's local variables:
`last_unob_corners`, `old_homog`, `old_inv_homog`.  (`corner_history` is
append-only and only its non-emptiness is ever read, so it is represented by
the `Option` in `processFrame`'s argument: `none` on the first frame.) -/
structure PrevState where
  lastUnob : List Pt
  oldHomog : Mat3
  oldInvHomog : Mat3

/-- The per-frame outputs: the finalized corner list (the value of `corners`
at line 306), the two point lists passed to the external homography solver
`cv2.findHomography` (line 311), and the value of `last_unob_corners` after
the frame. -/
structure FrameOut where
  finalized : List Pt
  homogSrc : List Pt
  homogDst : List Pt
  newLastUnob : List Pt

/-- `corners_pp = [[0, 0], [0, h], [w, h], [w, 0]]` with
`h = PAPER_RATIO * w` (lines 309-310). -/
noncomputable def canonicalRect (w : ℝ) : List Pt :=
  [(0, 0), (0, paperRatioHW * w), (w, paperRatioHW * w), (w, 0)]

/-- Lines 189-303: from the `if not corner_history` test through the
obstruction dispatch.  Input `corners0` is the labelled candidate list;
`prev` is `none` on the first frame (`corner_history` empty).  Returns the
pair (value of `corners` after the block, value of `last_unob_corners`
after the block), or the Python exception raised.

Faithfulness notes:
* Lines 194-197: the `if last_unob_corners is None` test can only be reached
  with `corner_history` non-empty, when `last_unob_corners` was assigned on
  the first frame, so both arms compute `get_edge_lengths` of the same list
  (`expected_corners` aliases `last_unob_corners`); the embedding computes
  that common value.
* Lines 248-257 compute the plane projections only when
  `sum(is_obstr) in (1, 2, 3)`; the lets below are unused in the other
  branches, which is observationally identical for these pure values.
* Line 298's guard `sum(is_obstr) in (3, 4)` and line 303's `raise` are kept
  verbatim as the final two branches. -/
noncomputable def frameCore (prev : Option PrevState) (corners0 : List Pt) :
    Except PyExn (List Pt × List Pt) :=
  match prev with
  | none => Except.ok (corners0, corners0)
  | some s =>
    let expected := s.lastUnob
    (resolveOrder expected corners0).bind fun corners1 =>
    let is_obstr := is_obstrOf corners1 expected
    if movedCount corners1 expected < 4 then
      Except.ok (expected, expected)
    else if movedCount corners1 expected = 1 then
      let bi := argmaxIdx (diffsOf corners1 expected)
      Except.ok (corners1.set bi (expected.getD bi (0, 0)), expected)
    else
      let exp_unob := unflagged expected is_obstr
      let exp_ob := flagged expected is_obstr
      let new_unob := unflagged corners1 is_obstr
      let exp_unob_pp := persTransform exp_unob s.oldHomog
      let exp_ob_pp := persTransform exp_ob s.oldHomog
      let new_unob_pp := persTransform new_unob s.oldHomog
      if obCount corners1 expected = 0 then
        Except.ok (corners1, expected)
      else if obCount corners1 expected = 1 then
        Except.ok
          (scatter corners1 is_obstr
            (reconstruct1pp exp_unob_pp new_unob_pp exp_ob_pp s.oldInvHomog),
           expected)
      else if obCount corners1 expected = 2 then
        Except.ok
          (scatter corners1 is_obstr
            (reconstruct2pp exp_unob_pp new_unob_pp exp_ob_pp s.oldInvHomog),
           expected)
      else if obCount corners1 expected = 3 ∨ obCount corners1 expected = 4
      then Except.ok (expected, expected)
      else Except.error PyExn.neverHappen

/-- `w = max(abs(br[0] - bl[0]), abs(tr[0] - tl[0]))` (lines 307-308),
where `tl, bl, br, tr` are the variables assigned by the corner labelling of
lines 165-169 — i.e. from the raw candidate corners, not from the finalized
corner set. -/
def rawWidth (raw : List Pt) : ℝ :=
  max |((labelCorners raw).getD 2 (0, 0)).1 - ((labelCorners raw).getD 1 (0, 0)).1|
      |((labelCorners raw).getD 3 (0, 0)).1 - ((labelCorners raw).getD 0 (0, 0)).1|

/-- One full iteration of the corner-tracking core (lines 162-312 plus the
state updates of lines 337-340): label the raw candidate corners, run
`frameCore`, then build the homography request — `w` from the labelling
variables `tl, bl, br, tr` (lines 307-308), the canonical rectangle from it,
and `cv2.findHomography` called on (`corners`, `corners_pp`) and
(`corners_pp`, `corners`).  `solveH` is the external solver; the returned
`PrevState` holds the loop variables for the next iteration. -/
noncomputable def processFrame (solveH : List Pt → List Pt → Mat3)
    (prev : Option PrevState) (raw : List Pt) :
    Except PyExn (PrevState × FrameOut) :=
  (frameCore prev (labelCorners raw)).bind fun res =>
    let corners2 := res.1
    let lastU := res.2
    let cornersPP := canonicalRect (rawWidth raw)
    Except.ok
      (⟨lastU, solveH corners2 cornersPP, solveH cornersPP corners2⟩,
       ⟨corners2, corners2, cornersPP, lastU⟩)

/- ## Evaluation helpers -/

lemma sqrtv (a b : ℝ) (hb : 0 ≤ b) (h : b ^ 2 = a) : Real.sqrt a = b := by
  rw [← h, Real.sqrt_sq hb]

lemma sqrt_lt' (a b : ℝ) (h0 : 0 ≤ a) (h : a < b) :
    Real.sqrt a < Real.sqrt b := Real.sqrt_lt_sqrt h0 h

lemma sqrt_ne' (a b : ℝ) (h0 : 0 ≤ a) (h1 : 0 ≤ b) (h : a ≠ b) :
    Real.sqrt a ≠ Real.sqrt b := fun hq => h ((Real.sqrt_inj h0 h1).mp hq)

lemma sqrt_not_lt (a b : ℝ) (h : a ≤ b) :
    ¬ Real.sqrt b < Real.sqrt a := not_lt.mpr (Real.sqrt_le_sqrt h)

lemma one_lt_sqrt' (a : ℝ) (h : 1 < a) : 1 < Real.sqrt a := by
  have h2 := Real.sqrt_lt_sqrt (by norm_num) h
  rwa [Real.sqrt_one] at h2

lemma not_one_lt_sqrt (a : ℝ) (h : a ≤ 1) : ¬ (1 < Real.sqrt a) := by
  have h2 := Real.sqrt_le_sqrt h
  rw [Real.sqrt_one] at h2
  exact not_lt.mpr h2

lemma countTrue_nil : countTrue [] = 0 := rfl

lemma countTrue_cons_pos (p : Prop) (l : List Prop) (h : p) :
    countTrue (p :: l) = countTrue l + 1 := by simp [countTrue, h]

lemma countTrue_cons_neg (p : Prop) (l : List Prop) (h : ¬ p) :
    countTrue (p :: l) = countTrue l := by simp [countTrue, h]

lemma cyclist_zero (l : List Pt) : cyclist l 0 = l := by simp [cyclist]

lemma cyclist_one (a b c d : Pt) : cyclist [a, b, c, d] 1 = [b, c, d, a] := by
  norm_num [cyclist, List.range_succ]

lemma cyclist_two (a b c d : Pt) : cyclist [a, b, c, d] 2 = [c, d, a, b] := by
  norm_num [cyclist, List.range_succ]

lemma cyclist_three (a b c d : Pt) : cyclist [a, b, c, d] 3 = [d, a, b, c] := by
  norm_num [cyclist, List.range_succ]

/-- Fold evaluation for `resolveOrder` when rotation 0 wins strictly. -/
lemma resolveOrder_ok_first (e c : List Pt)
    (h1 : orderDist e c 0 < orderDist e c 1)
    (h2 : orderDist e c 0 < orderDist e c 2)
    (h3 : orderDist e c 0 < orderDist e c 3) :
    resolveOrder e c = Except.ok (cyclist c 0) := by
  have n1 : orderDist e c 1 ≠ orderDist e c 0 := ne_of_gt h1
  have n2 : orderDist e c 2 ≠ orderDist e c 0 := ne_of_gt h2
  have n3 : orderDist e c 3 ≠ orderDist e c 0 := ne_of_gt h3
  have g1 : ¬ orderDist e c 1 < orderDist e c 0 := not_lt.mpr h1.le
  have g2 : ¬ orderDist e c 2 < orderDist e c 0 := not_lt.mpr h2.le
  have g3 : ¬ orderDist e c 3 < orderDist e c 0 := not_lt.mpr h3.le
  simp [resolveOrder, List.foldl, pyMinStep, Except.map, n1, n2, n3, g1, g2, g3]

/-- Fold evaluation for `resolveOrder` when rotation 3 wins strictly after
rotations 1 and 2 lost to rotation 0. -/
lemma resolveOrder_ok_fourth (e c : List Pt)
    (h1 : orderDist e c 0 < orderDist e c 1)
    (h2 : orderDist e c 0 < orderDist e c 2)
    (h3 : orderDist e c 3 < orderDist e c 0) :
    resolveOrder e c = Except.ok (cyclist c 3) := by
  have n1 : orderDist e c 1 ≠ orderDist e c 0 := ne_of_gt h1
  have n2 : orderDist e c 2 ≠ orderDist e c 0 := ne_of_gt h2
  have n3 : orderDist e c 3 ≠ orderDist e c 0 := ne_of_lt h3
  have g1 : ¬ orderDist e c 1 < orderDist e c 0 := not_lt.mpr h1.le
  have g2 : ¬ orderDist e c 2 < orderDist e c 0 := not_lt.mpr h2.le
  simp [resolveOrder, List.foldl, pyMinStep, Except.map, n1, n2, n3, g1, g2, h3]

/-- Comparison of two `orderDist` values via their squared (Frobenius)
evaluations. -/
lemma orderDist_lt (e c : List Pt) (j k : ℕ) (u v : ℝ)
    (hj : frobSq e (cyclist c j) = u) (hk : frobSq e (cyclist c k) = v)
    (h0 : 0 ≤ u) (huv : u < v) : orderDist e c j < orderDist e c k := by
  unfold orderDist
  rw [hj, hk]
  exact sqrt_lt' _ _ h0 huv

/- ## Concrete corner sets used in the witness and counterexample runs -/

/-- A 100x100 square in `[tl, bl, br, tr]` order (the first frame's
accepted corner set in the concrete runs below). -/
def sqE : List Pt := [(0, 0), (0, 100), (100, 100), (100, 0)]

/-- Raw detector output that labels to `sqE` (corners listed from `tl`
forward, so that line 165's `tr_index = 0` happens to be correct). -/
def rawIdent : List Pt := [(0, 0), (100, 0), (100, 100), (0, 100)]

/-- A state whose `last_unob_corners` is `sqE` (homographies instantiated
with the identity since the runs below never consult them). -/
def stateSq : PrevState := ⟨sqE, idMat3, idMat3⟩

/-- A trivial stand-in for the external `cv2.findHomography` solver. -/
def constSolve : List Pt → List Pt → Mat3 := fun _ _ => idMat3

lemma labelIdent : labelCorners rawIdent = sqE := by
  norm_num [labelCorners, rawIdent, sqE, trIndex]

lemma frob_ident_0 : frobSq sqE (cyclist sqE 0) = 0 := by
  norm_num [frobSq, cyclist, sqE]

lemma frob_ident_1 : frobSq sqE (cyclist sqE 1) = 40000 := by
  norm_num [frobSq, cyclist, List.range_succ, sqE]

lemma frob_ident_2 : frobSq sqE (cyclist sqE 2) = 80000 := by
  norm_num [frobSq, cyclist, List.range_succ, sqE]

lemma frob_ident_3 : frobSq sqE (cyclist sqE 3) = 40000 := by
  norm_num [frobSq, cyclist, List.range_succ, sqE]

lemma resolve_ident : resolveOrder sqE sqE = Except.ok sqE := by
  have h := resolveOrder_ok_first sqE sqE
    (orderDist_lt _ _ _ _ _ _ frob_ident_0 frob_ident_1 le_rfl (by norm_num))
    (orderDist_lt _ _ _ _ _ _ frob_ident_0 frob_ident_2 le_rfl (by norm_num))
    (orderDist_lt _ _ _ _ _ _ frob_ident_0 frob_ident_3 le_rfl (by norm_num))
  rwa [cyclist_zero] at h

lemma moved_ident : movedCount sqE sqE = 0 := by
  norm_num [movedCount, diffsOf, countTrue, vecNorm, sqNorm,
    tol_corner_movement, sqE, Prod.mk_sub_mk]

lemma obCount_ident : obCount sqE sqE = 0 := by
  norm_num [obCount, is_obstrOf, edgeBads, edgeLengthsOf, get_edge_lengths,
    cornerFlags, countTrue, vecNorm, sqNorm, obst_tol, sqE, Prod.mk_sub_mk]

/-- C4: on a frame after the first, whenever fewer than all 4 (reordered)
candidate corners are displaced from the expected corners by more than the
movement tolerance, the frame's finalized corner set is
`last_unobstructed_corners` verbatim; the obstruction classification and the
reconstruction branches do not influence the output. -/
theorem C4_movement_gate (solveH : List Pt → List Pt → Mat3) (s : PrevState)
    (raw corners1 : List Pt)
    (hres : resolveOrder s.lastUnob (labelCorners raw) = Except.ok corners1)
    (hmv : movedCount corners1 s.lastUnob < 4) :
    ∃ st out, processFrame solveH (some s) raw = Except.ok (st, out) ∧
      out.finalized = s.lastUnob := by
  simp only [processFrame, frameCore, hres, Except.bind]
  rw [if_pos hmv]
  exact ⟨_, _, rfl, rfl⟩

/-- Full output of `processFrame` on the movement-gate path. -/
lemma processFrame_gate_eq (solveH : List Pt → List Pt → Mat3) (s : PrevState)
    (raw corners1 : List Pt)
    (hres : resolveOrder s.lastUnob (labelCorners raw) = Except.ok corners1)
    (hmv : movedCount corners1 s.lastUnob < 4) :
    processFrame solveH (some s) raw = Except.ok
      (⟨s.lastUnob, solveH s.lastUnob (canonicalRect (rawWidth raw)),
        solveH (canonicalRect (rawWidth raw)) s.lastUnob⟩,
       ⟨s.lastUnob, s.lastUnob, canonicalRect (rawWidth raw), s.lastUnob⟩) := by
  simp only [processFrame, frameCore, hres, Except.bind]
  rw [if_pos hmv]

/-- Witness for `C4_movement_gate`: a frame whose candidate repeats the
previous accepted square exactly. -/
theorem C4_movement_gate_witness :
    ∃ st out,
      processFrame constSolve (some stateSq) rawIdent = Except.ok (st, out) ∧
      out.finalized = stateSq.lastUnob :=
  C4_movement_gate constSolve stateSq rawIdent sqE
    (by rw [labelIdent]; exact resolve_ident)
    (by show movedCount sqE sqE < 4; simp [moved_ident])

/-- C5 (amended): with 0 corners classified occluded and 0 corners moved
beyond the movement tolerance, the output corner set equals
`last_unobstructed_corners` (it equals the candidate only when the candidate
coincides with it). -/
theorem C5_idempotence_amended (solveH : List Pt → List Pt → Mat3)
    (s : PrevState) (raw corners1 : List Pt)
    (hres : resolveOrder s.lastUnob (labelCorners raw) = Except.ok corners1)
    (hob : obCount corners1 s.lastUnob = 0)
    (hmv : movedCount corners1 s.lastUnob = 0) :
    ∃ st out, processFrame solveH (some s) raw = Except.ok (st, out) ∧
      out.finalized = s.lastUnob := by
  simp only [processFrame, frameCore, hres, Except.bind]
  rw [if_pos (show movedCount corners1 s.lastUnob < 4 by omega)]
  exact ⟨_, _, rfl, rfl⟩

/-- Witness for `C5_idempotence_amended`. -/
theorem C5_idempotence_amended_witness :
    ∃ st out,
      processFrame constSolve (some stateSq) rawIdent = Except.ok (st, out) ∧
      out.finalized = stateSq.lastUnob :=
  C5_idempotence_amended constSolve stateSq rawIdent sqE
    (by rw [labelIdent]; exact resolve_ident)
    (by show obCount sqE sqE = 0; exact obCount_ident)
    (by show movedCount sqE sqE = 0; exact moved_ident)

/- ## A jittered frame: the previous square translated by (0.3, 0.4) -/

/-- `sqE` translated by `(0.3, 0.4)` — every corner within the movement
tolerance of its expected position. -/
noncomputable def candShift : List Pt :=
  [(3/10, 2/5), (3/10, 502/5), (1003/10, 502/5), (1003/10, 2/5)]

/-- Raw detector output that labels to `candShift`. -/
noncomputable def rawShift : List Pt :=
  [(3/10, 2/5), (1003/10, 2/5), (1003/10, 502/5), (3/10, 502/5)]

lemma labelShift : labelCorners rawShift = candShift := by
  norm_num [labelCorners, rawShift, candShift, trIndex]

lemma frob_shift_0 : frobSq sqE (cyclist candShift 0) = 1 := by
  norm_num [frobSq, cyclist, sqE, candShift]

lemma frob_shift_1 : frobSq sqE (cyclist candShift 1) = 40001 := by
  norm_num [frobSq, cyclist, List.range_succ, sqE, candShift]

lemma frob_shift_2 : frobSq sqE (cyclist candShift 2) = 80001 := by
  norm_num [frobSq, cyclist, List.range_succ, sqE, candShift]

lemma frob_shift_3 : frobSq sqE (cyclist candShift 3) = 40001 := by
  norm_num [frobSq, cyclist, List.range_succ, sqE, candShift]

lemma resolve_shift : resolveOrder sqE candShift = Except.ok candShift := by
  have h := resolveOrder_ok_first sqE candShift
    (orderDist_lt _ _ _ _ _ _ frob_shift_0 frob_shift_1 (by norm_num)
      (by norm_num))
    (orderDist_lt _ _ _ _ _ _ frob_shift_0 frob_shift_2 (by norm_num)
      (by norm_num))
    (orderDist_lt _ _ _ _ _ _ frob_shift_0 frob_shift_3 (by norm_num)
      (by norm_num))
  rwa [cyclist_zero] at h

lemma moved_shift : movedCount candShift sqE = 0 := by
  have h4 : Real.sqrt 4 = 2 := sqrtv _ _ (by norm_num) (by norm_num)
  have hq : ¬ (tol_corner_movement < (Real.sqrt 4)⁻¹) := by
    rw [tol_corner_movement, h4]
    norm_num
  norm_num [movedCount, diffsOf, countTrue, vecNorm, sqNorm, candShift, sqE,
    Prod.mk_sub_mk, hq]

lemma obCount_shift : obCount candShift sqE = 0 := by
  norm_num [obCount, is_obstrOf, edgeBads, edgeLengthsOf, get_edge_lengths,
    cornerFlags, countTrue, vecNorm, sqNorm, obst_tol, candShift, sqE,
    Prod.mk_sub_mk]

/-- C5 counterexample: a frame with 0 occluded corners and 0 corners moved
beyond tolerance, whose output is `last_unobstructed_corners` (the square)
and *not* the candidate corner set (the square translated by (0.3, 0.4)),
refuting the claimed idempotence. -/
theorem C5_idempotence_counterexample :
    resolveOrder stateSq.lastUnob (labelCorners rawShift) =
      Except.ok candShift ∧
    obCount candShift stateSq.lastUnob = 0 ∧
    movedCount candShift stateSq.lastUnob = 0 ∧
    ∃ st out,
      processFrame constSolve (some stateSq) rawShift = Except.ok (st, out) ∧
      out.finalized ≠ candShift := by
  have hres : resolveOrder stateSq.lastUnob (labelCorners rawShift) =
      Except.ok candShift := by rw [labelShift]; exact resolve_shift
  refine ⟨hres, obCount_shift, moved_shift, ?_⟩
  have hrun := processFrame_gate_eq constSolve stateSq rawShift candShift hres
    (by show movedCount candShift sqE < 4; simp [moved_shift])
  refine ⟨_, _, hrun, ?_⟩
  show stateSq.lastUnob ≠ candShift
  show sqE ≠ candShift
  intro h
  have h0 := congrArg (fun l => (List.getD l 0 ((0 : ℝ), (0 : ℝ))).1) h
  norm_num [sqE, candShift] at h0

/- ## A frame in which exactly one corner moved beyond tolerance -/

/-- `sqE` with the first three and last corners translated by `(0.3, 0.4)`
and the `br` corner displaced by `(12, 0)` — exactly one corner beyond the
movement tolerance. -/
noncomputable def candOne : List Pt :=
  [(3/10, 2/5), (3/10, 502/5), (112, 100), (1003/10, 2/5)]

/-- Raw detector output that labels to `candOne`. -/
noncomputable def rawOne : List Pt :=
  [(3/10, 2/5), (1003/10, 2/5), (112, 100), (3/10, 502/5)]

lemma labelOne : labelCorners rawOne = candOne := by
  norm_num [labelCorners, rawOne, candOne, trIndex]

lemma frob_one_0 : frobSq sqE (cyclist candOne 0) = 579 / 4 := by
  norm_num [frobSq, cyclist, sqE, candOne]

lemma frob_one_1 : frobSq sqE (cyclist candOne 1) = 169939 / 4 := by
  norm_num [frobSq, cyclist, List.range_succ, sqE, candOne]

lemma frob_one_2 : frobSq sqE (cyclist candOne 2) = 329619 / 4 := by
  norm_num [frobSq, cyclist, List.range_succ, sqE, candOne]

lemma frob_one_3 : frobSq sqE (cyclist candOne 3) = 160259 / 4 := by
  norm_num [frobSq, cyclist, List.range_succ, sqE, candOne]

lemma resolve_one : resolveOrder sqE candOne = Except.ok candOne := by
  have h := resolveOrder_ok_first sqE candOne
    (orderDist_lt _ _ _ _ _ _ frob_one_0 frob_one_1 (by norm_num)
      (by norm_num))
    (orderDist_lt _ _ _ _ _ _ frob_one_0 frob_one_2 (by norm_num)
      (by norm_num))
    (orderDist_lt _ _ _ _ _ _ frob_one_0 frob_one_3 (by norm_num)
      (by norm_num))
  rwa [cyclist_zero] at h

lemma moved_one : movedCount candOne sqE = 1 := by
  have h4 : Real.sqrt 4 = 2 := sqrtv _ _ (by norm_num) (by norm_num)
  have hq : ¬ (tol_corner_movement < (Real.sqrt 4)⁻¹) := by
    rw [tol_corner_movement, h4]
    norm_num
  have hp : tol_corner_movement < Real.sqrt 144 := by
    rw [tol_corner_movement]
    exact one_lt_sqrt' _ (by norm_num)
  norm_num [movedCount, diffsOf, countTrue, vecNorm, sqNorm, candOne, sqE,
    Prod.mk_sub_mk, hq, hp]

/-- C2: on the concrete frame `rawOne` exactly one corner's displacement
exceeds the movement tolerance, yet the output equals
`last_unobstructed_corners`, not the candidate with that corner replaced by
its expected location: the `sum(has_moved) == 1` replacement branch at lines
238-242 sits inside the `else` of `sum(has_moved) < 4` and is unreachable. -/
theorem C2_one_moved_code_eval :
    resolveOrder stateSq.lastUnob (labelCorners rawOne) = Except.ok candOne ∧
    movedCount candOne stateSq.lastUnob = 1 ∧
    ∃ st out,
      processFrame constSolve (some stateSq) rawOne = Except.ok (st, out) ∧
      out.finalized = stateSq.lastUnob ∧
      out.finalized ≠ candOne.set 2 (stateSq.lastUnob.getD 2 (0, 0)) := by
  have hres : resolveOrder stateSq.lastUnob (labelCorners rawOne) =
      Except.ok candOne := by rw [labelOne]; exact resolve_one
  refine ⟨hres, moved_one, ?_⟩
  have hrun := processFrame_gate_eq constSolve stateSq rawOne candOne hres
    (by show movedCount candOne sqE < 4; simp [moved_one])
  refine ⟨_, _, hrun, rfl, ?_⟩
  show stateSq.lastUnob ≠ candOne.set 2 (stateSq.lastUnob.getD 2 (0, 0))
  show sqE ≠ candOne.set 2 (sqE.getD 2 (0, 0))
  intro h
  have h0 := congrArg (fun l => (List.getD l 0 ((0 : ℝ), (0 : ℝ))).1) h
  norm_num [sqE, candOne] at h0

/-- Full output of `processFrame` on the all-moved, no-obstruction path. -/
lemma processFrame_noobstr_eq (solveH : List Pt → List Pt → Mat3)
    (s : PrevState) (raw corners1 : List Pt)
    (hres : resolveOrder s.lastUnob (labelCorners raw) = Except.ok corners1)
    (hmv : movedCount corners1 s.lastUnob = 4)
    (hob : obCount corners1 s.lastUnob = 0) :
    processFrame solveH (some s) raw = Except.ok
      (⟨s.lastUnob, solveH corners1 (canonicalRect (rawWidth raw)),
        solveH (canonicalRect (rawWidth raw)) corners1⟩,
       ⟨corners1, corners1, canonicalRect (rawWidth raw), s.lastUnob⟩) := by
  simp only [processFrame, frameCore, hres, Except.bind]
  rw [if_neg (show ¬ movedCount corners1 s.lastUnob < 4 by omega),
      if_neg (show ¬ movedCount corners1 s.lastUnob = 1 by omega),
      if_pos hob]

/- ## A frame in which the whole square moved by (10, 10) -/

/-- `sqE` translated by `(10, 10)`: all 4 corners beyond the movement
tolerance, no edge length changed. -/
def candMoved : List Pt := [(10, 10), (10, 110), (110, 110), (110, 10)]

/-- Raw detector output that labels to `candMoved`. -/
def rawMoved : List Pt := [(10, 10), (110, 10), (110, 110), (10, 110)]

lemma labelMoved : labelCorners rawMoved = candMoved := by
  norm_num [labelCorners, rawMoved, candMoved, trIndex]

lemma frob_moved_0 : frobSq sqE (cyclist candMoved 0) = 800 := by
  norm_num [frobSq, cyclist, sqE, candMoved]

lemma frob_moved_1 : frobSq sqE (cyclist candMoved 1) = 40800 := by
  norm_num [frobSq, cyclist, List.range_succ, sqE, candMoved]

lemma frob_moved_2 : frobSq sqE (cyclist candMoved 2) = 80800 := by
  norm_num [frobSq, cyclist, List.range_succ, sqE, candMoved]

lemma frob_moved_3 : frobSq sqE (cyclist candMoved 3) = 40800 := by
  norm_num [frobSq, cyclist, List.range_succ, sqE, candMoved]

lemma resolve_moved : resolveOrder sqE candMoved = Except.ok candMoved := by
  have h := resolveOrder_ok_first sqE candMoved
    (orderDist_lt _ _ _ _ _ _ frob_moved_0 frob_moved_1 (by norm_num)
      (by norm_num))
    (orderDist_lt _ _ _ _ _ _ frob_moved_0 frob_moved_2 (by norm_num)
      (by norm_num))
    (orderDist_lt _ _ _ _ _ _ frob_moved_0 frob_moved_3 (by norm_num)
      (by norm_num))
  rwa [cyclist_zero] at h

lemma moved_moved : movedCount candMoved sqE = 4 := by
  have hp : tol_corner_movement < Real.sqrt 200 := by
    rw [tol_corner_movement]
    exact one_lt_sqrt' _ (by norm_num)
  norm_num [movedCount, diffsOf, countTrue, vecNorm, sqNorm, candMoved, sqE,
    Prod.mk_sub_mk, hp]

lemma obCount_moved : obCount candMoved sqE = 0 := by
  norm_num [obCount, is_obstrOf, edgeBads, edgeLengthsOf, get_edge_lengths,
    cornerFlags, countTrue, vecNorm, sqNorm, obst_tol, candMoved, sqE,
    Prod.mk_sub_mk]

/-- C1: a frame the algorithm judges acceptable (it completes, all corners
moved, no corner classified obstructed, finalized corner set = the
translated square) after which `last_unob_corners` still holds the previous
value: the update section at lines 337-340 refreshes `corner_history`,
`old_homog` and `old_inv_homog` but never `last_unob_corners`, which is
assigned only on the first frame (line 190).  The expected corners used by
the next frame therefore differ from the corners accepted on this frame. -/
theorem C1_lastUnob_never_updated_eval :
    resolveOrder stateSq.lastUnob (labelCorners rawMoved) =
      Except.ok candMoved ∧
    ∃ st out,
      processFrame constSolve (some stateSq) rawMoved = Except.ok (st, out) ∧
      out.finalized = candMoved ∧
      st.lastUnob = stateSq.lastUnob ∧
      st.lastUnob ≠ out.finalized := by
  have hres : resolveOrder stateSq.lastUnob (labelCorners rawMoved) =
      Except.ok candMoved := by rw [labelMoved]; exact resolve_moved
  refine ⟨hres, ?_⟩
  have hrun := processFrame_noobstr_eq constSolve stateSq rawMoved candMoved
    hres (by show movedCount candMoved sqE = 4; exact moved_moved)
    (by show obCount candMoved sqE = 0; exact obCount_moved)
  refine ⟨_, _, hrun, rfl, rfl, ?_⟩
  show stateSq.lastUnob ≠ candMoved
  show sqE ≠ candMoved
  intro h
  have h0 := congrArg (fun l => (List.getD l 0 ((0 : ℝ), (0 : ℝ))).1) h
  norm_num [sqE, candMoved] at h0

/-- The width prescribed by the specification: computed from a *finalized*
corner set `[tl, bl, br, tr]` as `max(|br.x - bl.x|, |tr.x - tl.x|)`.
(Defined from the claim's wording, for comparison with `rawWidth`, which is
what lines 307-308 actually compute.) -/
def claimWidth (c : List Pt) : ℝ :=
  max |(c.getD 2 (0, 0)).1 - (c.getD 1 (0, 0)).1|
      |(c.getD 3 (0, 0)).1 - (c.getD 0 (0, 0)).1|

/-- C9 (amended): for every frame that completes, the homography request
maps the finalized corner set to the canonical rectangle
`[(0,0), (0,h), (w,h), (w,0)]` with `h = PAPER_RATIO * w`, but `w` is
computed from the corner-labelling variables `tl, bl, br, tr` assigned at
lines 165-169 from the *raw* candidate corners — not from the finalized
corner set. -/
theorem C9_homography_request (solveH : List Pt → List Pt → Mat3)
    (prev : Option PrevState) (raw : List Pt) (st : PrevState)
    (out : FrameOut)
    (h : processFrame solveH prev raw = Except.ok (st, out)) :
    out.homogSrc = out.finalized ∧
    out.homogDst = canonicalRect (rawWidth raw) := by
  unfold processFrame at h
  rcases hc : frameCore prev (labelCorners raw) with e | res
  · rw [hc] at h
    simp [Except.bind] at h
  · rw [hc] at h
    simp only [Except.bind] at h
    injection h with h
    have hout : out = ⟨res.1, res.1, canonicalRect (rawWidth raw), res.2⟩ :=
      (congrArg Prod.snd h).symm
    rw [hout]
    exact ⟨rfl, rfl⟩

/-- Witness for `C9_homography_request`. -/
theorem C9_homography_request_witness :
    ∃ st out,
      processFrame constSolve (some stateSq) rawIdent = Except.ok (st, out) ∧
      out.homogSrc = out.finalized ∧
      out.homogDst = canonicalRect (rawWidth rawIdent) := by
  have hres : resolveOrder stateSq.lastUnob (labelCorners rawIdent) =
      Except.ok sqE := by rw [labelIdent]; exact resolve_ident
  have hrun := processFrame_gate_eq constSolve stateSq rawIdent sqE hres
    (by show movedCount sqE sqE < 4; simp [moved_ident])
  exact ⟨_, _, hrun, C9_homography_request constSolve (some stateSq) rawIdent
    _ _ hrun⟩

/- ## A 100x50 rectangle frame whose raw corner list starts at `bl` -/

/-- The previously accepted 100x50 rectangle, `[tl, bl, br, tr]` order. -/
def rectE : List Pt := [(0, 0), (0, 50), (100, 50), (100, 0)]

/-- `rectE` with `tl` perturbed by `(0.9, 0)` (within tolerance). -/
noncomputable def candRect : List Pt :=
  [(9/10, 0), (0, 50), (100, 50), (100, 0)]

/-- Raw detector output for `candRect` starting at the `bl` corner: a legal
clockwise candidate list with starting offset 3. -/
noncomputable def rawRect : List Pt :=
  [(0, 50), (9/10, 0), (100, 0), (100, 50)]

/-- The labelled corner list of `rawRect` (still mis-rotated). -/
noncomputable def labRect : List Pt :=
  [(0, 50), (100, 50), (100, 0), (9/10, 0)]

/-- A state whose `last_unob_corners` is `rectE`. -/
def stateRect : PrevState := ⟨rectE, idMat3, idMat3⟩

lemma labelRect : labelCorners rawRect = labRect := by
  norm_num [labelCorners, rawRect, labRect, trIndex]

lemma frob_rect_0 : frobSq rectE (cyclist labRect 0) = 2482081 / 100 := by
  norm_num [frobSq, cyclist, rectE, labRect]

lemma frob_rect_1 : frobSq rectE (cyclist labRect 1) = 4982081 / 100 := by
  norm_num [frobSq, cyclist, List.range_succ, rectE, labRect]

lemma frob_rect_2 : frobSq rectE (cyclist labRect 2) = 2500081 / 100 := by
  norm_num [frobSq, cyclist, List.range_succ, rectE, labRect]

lemma frob_rect_3 : frobSq rectE (cyclist labRect 3) = 81 / 100 := by
  norm_num [frobSq, cyclist, List.range_succ, rectE, labRect]

lemma cyclist_labRect : cyclist labRect 3 = candRect := by
  norm_num [cyclist, List.range_succ, labRect, candRect]

lemma resolve_rect : resolveOrder rectE labRect = Except.ok candRect := by
  have h := resolveOrder_ok_fourth rectE labRect
    (orderDist_lt _ _ _ _ _ _ frob_rect_0 frob_rect_1 (by norm_num)
      (by norm_num))
    (orderDist_lt _ _ _ _ _ _ frob_rect_0 frob_rect_2 (by norm_num)
      (by norm_num))
    (orderDist_lt _ _ _ _ _ _ frob_rect_3 frob_rect_0 (by norm_num)
      (by norm_num))
  rwa [cyclist_labRect] at h

lemma moved_rect : movedCount candRect rectE = 0 := by
  have hq : Real.sqrt 81 / Real.sqrt 100 ≤ 1 := by
    rw [sqrtv 81 9 (by norm_num) (by norm_num),
      sqrtv 100 10 (by norm_num) (by norm_num)]
    norm_num
  norm_num [movedCount, diffsOf, countTrue, vecNorm, sqNorm, candRect, rectE,
    Prod.mk_sub_mk, tol_corner_movement, hq]

lemma rawWidth_rect : rawWidth rawRect = 9 / 10 := by
  rw [rawWidth, labelRect]
  norm_num [labRect]

/-- C9 counterexample: a frame whose finalized corner set is the 100x50
rectangle `rectE` (so the width the claim prescribes is 100), while the
width actually used for the canonical rectangle is 0.9, because lines
307-308 read the labelling variables `tl, bl, br, tr` assigned from the raw
candidate list (here rotated to start at `bl`) before correspondence
resolution. -/
theorem C9_homography_counterexample :
    ∃ st out,
      processFrame constSolve (some stateRect) rawRect = Except.ok (st, out) ∧
      out.finalized = rectE ∧
      claimWidth out.finalized = 100 ∧
      out.homogDst = canonicalRect (9 / 10) ∧
      out.homogDst ≠ canonicalRect (claimWidth out.finalized) := by
  have hres : resolveOrder stateRect.lastUnob (labelCorners rawRect) =
      Except.ok candRect := by rw [labelRect]; exact resolve_rect
  have hrun := processFrame_gate_eq constSolve stateRect rawRect candRect hres
    (by show movedCount candRect rectE < 4; simp [moved_rect])
  rw [rawWidth_rect] at hrun
  refine ⟨_, _, hrun, rfl, by norm_num [claimWidth, stateRect, rectE], rfl, ?_⟩
  have hcw : claimWidth rectE = 100 := by norm_num [claimWidth, rectE]
  show canonicalRect (9 / 10) ≠ canonicalRect (claimWidth rectE)
  rw [hcw]
  intro h
  have h0 := congrArg (fun l => (List.getD l 3 ((0 : ℝ), (0 : ℝ))).1) h
  norm_num [canonicalRect] at h0

lemma lt_of_not_lt_of_ne {x y : ℝ} (h1 : ¬ x < y) (h2 : ¬ x = y) : y < x :=
  lt_of_le_of_ne (not_lt.mp h1) fun q => h2 q.symm

/-- C3 (amended): whenever the correspondence step completes without
raising, it returns the cyclic rotation whose Frobenius-norm distance
`norm(expected - rotated)` is strictly smaller than every other rotation's;
an exact distance tie with the running minimum raises `ValueError` (numpy
array in boolean context) instead of resolving to the lowest index. -/
theorem C3_resolver_amended (expected corners r : List Pt)
    (h : resolveOrder expected corners = Except.ok r) :
    ∃ k < 4, r = cyclist corners k ∧ ∀ j < 4, j ≠ k →
      orderDist expected corners k < orderDist expected corners j := by
  unfold resolveOrder at h
  simp only [List.foldl] at h
  by_cases e1 : orderDist expected corners 1 = orderDist expected corners 0
  · simp [pyMinStep, e1, Except.map] at h
  by_cases l1 : orderDist expected corners 1 < orderDist expected corners 0
  · -- running best is rotation 1
    by_cases e2 : orderDist expected corners 2 = orderDist expected corners 1
    · simp [pyMinStep, e1, l1, e2, Except.map] at h
    by_cases l2 : orderDist expected corners 2 < orderDist expected corners 1
    · -- running best is rotation 2
      by_cases e3 : orderDist expected corners 3 = orderDist expected corners 2
      · simp [pyMinStep, e1, l1, e2, l2, e3, Except.map] at h
      by_cases l3 : orderDist expected corners 3 < orderDist expected corners 2
      · simp [pyMinStep, e1, l1, e2, l2, e3, l3, Except.map] at h
        refine ⟨3, by norm_num, h.symm, ?_⟩
        intro j hj4 hjne
        interval_cases j <;> [linarith; linarith; linarith; omega]
      · simp [pyMinStep, e1, l1, e2, l2, e3, l3, Except.map] at h
        refine ⟨2, by norm_num, h.symm, ?_⟩
        intro j hj4 hjne
        have q3 := lt_of_not_lt_of_ne l3 e3
        interval_cases j <;> [linarith; linarith; omega; linarith]
    · -- running best stays rotation 1
      have q2 := lt_of_not_lt_of_ne l2 e2
      by_cases e3 : orderDist expected corners 3 = orderDist expected corners 1
      · simp [pyMinStep, e1, l1, e2, l2, e3, Except.map] at h
      by_cases l3 : orderDist expected corners 3 < orderDist expected corners 1
      · simp [pyMinStep, e1, l1, e2, l2, e3, l3, Except.map] at h
        refine ⟨3, by norm_num, h.symm, ?_⟩
        intro j hj4 hjne
        interval_cases j <;> [linarith; linarith; linarith; omega]
      · simp [pyMinStep, e1, l1, e2, l2, e3, l3, Except.map] at h
        refine ⟨1, by norm_num, h.symm, ?_⟩
        intro j hj4 hjne
        have q3 := lt_of_not_lt_of_ne l3 e3
        interval_cases j <;> [linarith; omega; linarith; linarith]
  · -- running best stays rotation 0
    have q1 := lt_of_not_lt_of_ne l1 e1
    by_cases e2 : orderDist expected corners 2 = orderDist expected corners 0
    · simp [pyMinStep, e1, l1, e2, Except.map] at h
    by_cases l2 : orderDist expected corners 2 < orderDist expected corners 0
    · -- running best is rotation 2
      by_cases e3 : orderDist expected corners 3 = orderDist expected corners 2
      · simp [pyMinStep, e1, l1, e2, l2, e3, Except.map] at h
      by_cases l3 : orderDist expected corners 3 < orderDist expected corners 2
      · simp [pyMinStep, e1, l1, e2, l2, e3, l3, Except.map] at h
        refine ⟨3, by norm_num, h.symm, ?_⟩
        intro j hj4 hjne
        interval_cases j <;> [linarith; linarith; linarith; omega]
      · simp [pyMinStep, e1, l1, e2, l2, e3, l3, Except.map] at h
        refine ⟨2, by norm_num, h.symm, ?_⟩
        intro j hj4 hjne
        have q3 := lt_of_not_lt_of_ne l3 e3
        interval_cases j <;> [linarith; linarith; omega; linarith]
    · -- running best stays rotation 0
      have q2 := lt_of_not_lt_of_ne l2 e2
      by_cases e3 : orderDist expected corners 3 = orderDist expected corners 0
      · simp [pyMinStep, e1, l1, e2, l2, e3, Except.map] at h
      by_cases l3 : orderDist expected corners 3 < orderDist expected corners 0
      · simp [pyMinStep, e1, l1, e2, l2, e3, l3, Except.map] at h
        refine ⟨3, by norm_num, h.symm, ?_⟩
        intro j hj4 hjne
        interval_cases j <;> [linarith; linarith; linarith; omega]
      · simp [pyMinStep, e1, l1, e2, l2, e3, l3, Except.map] at h
        refine ⟨0, by norm_num, h.symm, ?_⟩
        intro j hj4 hjne
        have q3 := lt_of_not_lt_of_ne l3 e3
        interval_cases j <;> [omega; linarith; linarith; linarith]

/-- Witness for `C3_resolver_amended`, at the identity frame. -/
theorem C3_resolver_amended_witness :
    ∃ k < 4, sqE = cyclist sqE k ∧ ∀ j < 4, j ≠ k →
      orderDist sqE sqE k < orderDist sqE sqE j :=
  C3_resolver_amended sqE sqE sqE resolve_ident

/-- The total per-corner Euclidean distance between two corner lists: the
metric the specification ascribes to the correspondence resolver ("the sum
of per-corner Euclidean distances").  Defined from the claim's wording, for
comparison with `orderDist` (the Frobenius norm the code minimises). -/
noncomputable def sumCornerDist (a b : List Pt) : ℝ :=
  ((a.zip b).map fun pq => vecNorm (pq.1 - pq.2)).sum

/- ## A collinear configuration separating the two metrics -/

/-- Expected corners on a line: x-coordinates 0, 1, 2, 3. -/
def expLine : List Pt := [(0, 0), (1, 0), (2, 0), (3, 0)]

/-- Candidate corners on the same line: x-coordinates 0, 0, 7, 2. -/
def candLine : List Pt := [(0, 0), (0, 0), (7, 0), (2, 0)]

lemma frob_line_0 : frobSq expLine (cyclist candLine 0) = 27 := by
  norm_num [frobSq, cyclist, expLine, candLine]

lemma frob_line_1 : frobSq expLine (cyclist candLine 1) = 45 := by
  norm_num [frobSq, cyclist, List.range_succ, expLine, candLine]

lemma frob_line_2 : frobSq expLine (cyclist candLine 2) = 63 := by
  norm_num [frobSq, cyclist, List.range_succ, expLine, candLine]

lemma frob_line_3 : frobSq expLine (cyclist candLine 3) = 25 := by
  norm_num [frobSq, cyclist, List.range_succ, expLine, candLine]

/-- C3 counterexample: the resolver returns rotation 3 (the Frobenius-norm
minimiser), although rotation 0 has a strictly smaller total per-corner
Euclidean distance (7 against 9), so the returned rotation does not minimise
the sum of per-corner Euclidean distances that the claim prescribes. -/
theorem C3_resolver_counterexample :
    resolveOrder expLine candLine = Except.ok (cyclist candLine 3) ∧
    sumCornerDist expLine (cyclist candLine 0) <
      sumCornerDist expLine (cyclist candLine 3) := by
  constructor
  · exact resolveOrder_ok_fourth expLine candLine
      (orderDist_lt _ _ _ _ _ _ frob_line_0 frob_line_1 (by norm_num)
        (by norm_num))
      (orderDist_lt _ _ _ _ _ _ frob_line_0 frob_line_2 (by norm_num)
        (by norm_num))
      (orderDist_lt _ _ _ _ _ _ frob_line_3 frob_line_0 (by norm_num)
        (by norm_num))
  · have s1 : Real.sqrt 1 = 1 := by
      rw [Real.sqrt_one]
    have s4 : Real.sqrt 4 = 2 := sqrtv _ _ (by norm_num) (by norm_num)
    have s16 : Real.sqrt 16 = 4 := sqrtv _ _ (by norm_num) (by norm_num)
    have s25 : Real.sqrt 25 = 5 := sqrtv _ _ (by norm_num) (by norm_num)
    norm_num [sumCornerDist, cyclist, List.range_succ, vecNorm, sqNorm,
      expLine, candLine, Prod.mk_sub_mk, s1, s4, s16, s25]

/- ## Classifier projections -/

/-- The `tl` entry of the obstruction flags built from the four edge-bad
conditions (top, right, bottom, left). -/
def flagTL (top rgt bot lft : Prop) : Prop :=
  (cornerFlags top rgt bot lft).getD 0 False

/-- The `bl` entry of the obstruction flags. -/
def flagBL (top rgt bot lft : Prop) : Prop :=
  (cornerFlags top rgt bot lft).getD 1 False

/-- The `br` entry of the obstruction flags. -/
def flagBR (top rgt bot lft : Prop) : Prop :=
  (cornerFlags top rgt bot lft).getD 2 False

/-- The `tr` entry of the obstruction flags. -/
def flagTR (top rgt bot lft : Prop) : Prop :=
  (cornerFlags top rgt bot lft).getD 3 False

/-- C6: for corners `[tl, bl, br, tr]` and expected corners
`[etl, ebl, ebr, etr]`, an edge is bad iff the absolute difference between
its new length and its expected length exceeds the obstruction tolerance,
and each corner is flagged occluded iff both adjacent edges are bad —
top/left for `tl`, bottom/left for `bl`, bottom/right for `br`,
top/right for `tr`, in corner-set order. -/
theorem C6_classifier (tl bl br tr etl ebl ebr etr : Pt) :
    ((is_obstrOf [tl, bl, br, tr] [etl, ebl, ebr, etr]).getD 0 False ↔
      (|vecNorm (tr - tl) - vecNorm (etr - etl)| > obst_tol ∧
       |vecNorm (bl - tl) - vecNorm (ebl - etl)| > obst_tol)) ∧
    ((is_obstrOf [tl, bl, br, tr] [etl, ebl, ebr, etr]).getD 1 False ↔
      (|vecNorm (br - bl) - vecNorm (ebr - ebl)| > obst_tol ∧
       |vecNorm (bl - tl) - vecNorm (ebl - etl)| > obst_tol)) ∧
    ((is_obstrOf [tl, bl, br, tr] [etl, ebl, ebr, etr]).getD 2 False ↔
      (|vecNorm (br - bl) - vecNorm (ebr - ebl)| > obst_tol ∧
       |vecNorm (tr - br) - vecNorm (etr - ebr)| > obst_tol)) ∧
    ((is_obstrOf [tl, bl, br, tr] [etl, ebl, ebr, etr]).getD 3 False ↔
      (|vecNorm (tr - tl) - vecNorm (etr - etl)| > obst_tol ∧
       |vecNorm (tr - br) - vecNorm (etr - ebr)| > obst_tol)) := by
  have hc : ∀ x y : ℝ, |x - y| = |y - x| := fun x y => abs_sub_comm x y
  simp only [is_obstrOf, edgeBads, edgeLengthsOf, get_edge_lengths,
    cornerFlags, List.zip_cons_cons, List.zip_nil_right, List.map_cons,
    List.map_nil, List.getD_cons_zero, List.getD_cons_succ]
  rw [hc (vecNorm (etr - etl)), hc (vecNorm (etr - ebr)),
    hc (vecNorm (ebr - ebl)), hc (vecNorm (ebl - etl))]
  norm_num

/-- C10: whatever the four edge-bad booleans are, the derived occlusion
flags mark no corner, exactly one corner, exactly two corners adjacent along
an edge (`tl`-`bl`, `bl`-`br`, `br`-`tr` or `tr`-`tl`), or all four corners;
exactly three corners, or two opposite corners, can never be flagged, so the
3-occluded reconstruction case cannot be produced by the classifier. -/
theorem C10_flag_patterns (t r b l : Bool) :
    (¬ flagTL (t = true) (r = true) (b = true) (l = true) ∧
       ¬ flagBL (t = true) (r = true) (b = true) (l = true) ∧
       ¬ flagBR (t = true) (r = true) (b = true) (l = true) ∧
       ¬ flagTR (t = true) (r = true) (b = true) (l = true)) ∨
    (flagTL (t = true) (r = true) (b = true) (l = true) ∧
       ¬ flagBL (t = true) (r = true) (b = true) (l = true) ∧
       ¬ flagBR (t = true) (r = true) (b = true) (l = true) ∧
       ¬ flagTR (t = true) (r = true) (b = true) (l = true)) ∨
    (¬ flagTL (t = true) (r = true) (b = true) (l = true) ∧
       flagBL (t = true) (r = true) (b = true) (l = true) ∧
       ¬ flagBR (t = true) (r = true) (b = true) (l = true) ∧
       ¬ flagTR (t = true) (r = true) (b = true) (l = true)) ∨
    (¬ flagTL (t = true) (r = true) (b = true) (l = true) ∧
       ¬ flagBL (t = true) (r = true) (b = true) (l = true) ∧
       flagBR (t = true) (r = true) (b = true) (l = true) ∧
       ¬ flagTR (t = true) (r = true) (b = true) (l = true)) ∨
    (¬ flagTL (t = true) (r = true) (b = true) (l = true) ∧
       ¬ flagBL (t = true) (r = true) (b = true) (l = true) ∧
       ¬ flagBR (t = true) (r = true) (b = true) (l = true) ∧
       flagTR (t = true) (r = true) (b = true) (l = true)) ∨
    (flagTL (t = true) (r = true) (b = true) (l = true) ∧
       flagBL (t = true) (r = true) (b = true) (l = true) ∧
       ¬ flagBR (t = true) (r = true) (b = true) (l = true) ∧
       ¬ flagTR (t = true) (r = true) (b = true) (l = true)) ∨
    (¬ flagTL (t = true) (r = true) (b = true) (l = true) ∧
       flagBL (t = true) (r = true) (b = true) (l = true) ∧
       flagBR (t = true) (r = true) (b = true) (l = true) ∧
       ¬ flagTR (t = true) (r = true) (b = true) (l = true)) ∨
    (¬ flagTL (t = true) (r = true) (b = true) (l = true) ∧
       ¬ flagBL (t = true) (r = true) (b = true) (l = true) ∧
       flagBR (t = true) (r = true) (b = true) (l = true) ∧
       flagTR (t = true) (r = true) (b = true) (l = true)) ∨
    (flagTL (t = true) (r = true) (b = true) (l = true) ∧
       ¬ flagBL (t = true) (r = true) (b = true) (l = true) ∧
       ¬ flagBR (t = true) (r = true) (b = true) (l = true) ∧
       flagTR (t = true) (r = true) (b = true) (l = true)) ∨
    (flagTL (t = true) (r = true) (b = true) (l = true) ∧
       flagBL (t = true) (r = true) (b = true) (l = true) ∧
       flagBR (t = true) (r = true) (b = true) (l = true) ∧
       flagTR (t = true) (r = true) (b = true) (l = true)) := by
  cases t <;> cases r <;> cases b <;> cases l <;>
    simp [flagTL, flagBL, flagBR, flagTR, cornerFlags]

/-- Modelled from the spec (claim C7): the transform the specification
describes for the 2-occluded path — translation by the difference of the two
unoccluded reference points, followed by a rotation *about the new
unoccluded reference point's position* by the unsigned angle
`acos(dot(u_expected, u_new))` (a plain angle, in radians), keeping
whichever of the rotation and its inverse reproduces the new unit vector
more closely; the result is mapped back to image space via the previous
frame's inverse homography. -/
noncomputable def reconstruct2Claimed
    (exp_unob_pp new_unob_pp exp_ob_pp : List Pt) (oldInvHomog : Mat3) :
    List Pt :=
  let p1 := new_unob_pp.getD 0 (0, 0)
  let q1 := new_unob_pp.getD 1 (0, 0)
  let p0 := exp_unob_pp.getD 0 (0, 0)
  let q0 := exp_unob_pp.getD 1 (0, 0)
  let u0 := divPt (q0 - p0) (vecNorm (q0 - p0))
  let u1 := divPt (q1 - p1) (vecNorm (q1 - p1))
  let angle := Real.arccos (dotPt u0 u1)
  let trans := p1 - p0
  let rpos : Mat2 :=
    ⟨Real.cos angle, -Real.sin angle, Real.sin angle, Real.cos angle⟩
  let rneg : Mat2 :=
    ⟨Real.cos angle, Real.sin angle, -Real.sin angle, Real.cos angle⟩
  let rsel :=
    if vecNorm (matVec rpos u0 - u1) ≤ vecNorm (matVec rneg u0 - u1)
    then rpos else rneg
  persTransform
    (exp_ob_pp.map fun x => p1 + matVec rsel (x + trans - p1)) oldInvHomog

/-- The inverse of the 2x2 block of an OpenCV rotation matrix is its
transpose. -/
lemma inv2_rot (x : ℝ) :
    inv2 ⟨Real.cos x, Real.sin x, -Real.sin x, Real.cos x⟩ =
      ⟨Real.cos x, -Real.sin x, Real.sin x, Real.cos x⟩ := by
  have h := Real.sin_sq_add_cos_sq x
  have hdet : Real.cos x * Real.cos x - Real.sin x * -Real.sin x = 1 := by
    nlinarith
  simp only [inv2, hdet]
  norm_num

/-- The sign-check branch of the 2-occluded path: selecting the inverse of
the rotation block equals selecting its transpose. -/
lemma rotSelect_eq (u0 u1 : Pt) (x : ℝ) :
    (if vecNorm (rowVecMul u0
          ⟨Real.cos x, Real.sin x, -Real.sin x, Real.cos x⟩ - u1) >
        vecNorm (rowVecMul u1
          ⟨Real.cos x, Real.sin x, -Real.sin x, Real.cos x⟩ - u0)
     then inv2 ⟨Real.cos x, Real.sin x, -Real.sin x, Real.cos x⟩
     else ⟨Real.cos x, Real.sin x, -Real.sin x, Real.cos x⟩) =
    (if vecNorm (rowVecMul u0
          ⟨Real.cos x, Real.sin x, -Real.sin x, Real.cos x⟩ - u1) >
        vecNorm (rowVecMul u1
          ⟨Real.cos x, Real.sin x, -Real.sin x, Real.cos x⟩ - u0)
     then ⟨Real.cos x, -Real.sin x, Real.sin x, Real.cos x⟩
     else ⟨Real.cos x, Real.sin x, -Real.sin x, Real.cos x⟩) := by
  split_ifs with hc
  · exact inv2_rot x
  · rfl

/-- C7 (amended): the transform the 2-occluded path actually applies to
each occluded corner's expected plane-space position is: translation by the
difference `p1 - p0` of the two unoccluded reference points, followed by
multiplication by the 2x2 linear block of the OpenCV rotation matrix for
the angle `acos(dot(u0, u1))` — interpreted by OpenCV in *degrees*, so the
effective rotation angle is `acos(dot(u0, u1)) * π / 180` — applied about
the origin, since the `[:, :2]` slice discards the translation column that
would have centred the rotation at `p1`; when the heuristic comparison
`norm(u0·R - u1) > norm(u1·R - u0)` holds, the transpose of that block (its
matrix inverse) is applied instead; the result is mapped back to image
space through the previous frame's inverse homography. -/
theorem C7_reconstruct2_amended
    (exp_unob_pp new_unob_pp exp_ob_pp : List Pt) (H : Mat3) :
    reconstruct2pp exp_unob_pp new_unob_pp exp_ob_pp H =
      (let p1 := new_unob_pp.getD 0 (0, 0)
       let q1 := new_unob_pp.getD 1 (0, 0)
       let p0 := exp_unob_pp.getD 0 (0, 0)
       let q0 := exp_unob_pp.getD 1 (0, 0)
       let u0 := divPt (q0 - p0) (vecNorm (q0 - p0))
       let u1 := divPt (q1 - p1) (vecNorm (q1 - p1))
       let theta := Real.arccos (dotPt u0 u1) * Real.pi / 180
       let rotfwd : Mat2 :=
         ⟨Real.cos theta, Real.sin theta, -Real.sin theta, Real.cos theta⟩
       let rotbwd : Mat2 :=
         ⟨Real.cos theta, -Real.sin theta, Real.sin theta, Real.cos theta⟩
       let rsel :=
         if vecNorm (rowVecMul u0 rotfwd - u1) >
             vecNorm (rowVecMul u1 rotfwd - u0)
         then rotbwd else rotfwd
       persTransform (exp_ob_pp.map fun x => matVec rsel (x + (p1 - p0))) H)
    := by
  simp only [reconstruct2pp, getRotationMatrix2D, sliceCols2, affTransform2,
    one_mul, List.map_map]
  rw [rotSelect_eq]
  rfl

lemma reconstruct2pp_eval :
    reconstruct2pp [(0, 0), (5, 0)] [(0, 0), (0, 3)] [(1, 0), (2, 0)]
      idMat3 =
      [(Real.cos (Real.pi / 2 * Real.pi / 180),
        -Real.sin (Real.pi / 2 * Real.pi / 180)),
       (2 * Real.cos (Real.pi / 2 * Real.pi / 180),
        -(2 * Real.sin (Real.pi / 2 * Real.pi / 180)))] := by
  have harccos : Real.arccos 0 = Real.pi / 2 := by simp [Real.arccos]
  have s25 : Real.sqrt 25 = 5 := sqrtv _ _ (by norm_num) (by norm_num)
  have s9 : Real.sqrt 9 = 3 := sqrtv _ _ (by norm_num) (by norm_num)
  have hA0 : (0 : ℝ) ≤ Real.pi / 2 * Real.pi / 180 := by positivity
  have hApi : Real.pi / 2 * Real.pi / 180 ≤ Real.pi := by
    nlinarith [Real.pi_lt_d2, Real.pi_pos]
  have hs : 0 ≤ Real.sin (Real.pi / 2 * Real.pi / 180) :=
    Real.sin_nonneg_of_nonneg_of_le_pi hA0 hApi
  have hcond : ¬ (Real.sqrt
        ((-Real.sin (Real.pi / 2 * Real.pi / 180) - 1) ^ 2
          + Real.cos (Real.pi / 2 * Real.pi / 180) ^ 2) <
      Real.sqrt (Real.cos (Real.pi / 2 * Real.pi / 180) ^ 2
          + (Real.sin (Real.pi / 2 * Real.pi / 180) - 1) ^ 2)) := by
    apply sqrt_not_lt
    nlinarith [hs]
  norm_num [reconstruct2pp, divPt, dotPt, vecNorm, sqNorm, s25, s9, harccos,
    getRotationMatrix2D, sliceCols2, rowVecMul, affTransform2, matVec,
    persTransform, idMat3, Prod.mk_sub_mk, inv2, hcond]
  constructor <;> ring

lemma reconstruct2Claimed_eval :
    reconstruct2Claimed [(0, 0), (5, 0)] [(0, 0), (0, 3)] [(1, 0), (2, 0)]
      idMat3 = [(0, 1), (0, 2)] := by
  have harccos : Real.arccos 0 = Real.pi / 2 := by simp [Real.arccos]
  have s25 : Real.sqrt 25 = 5 := sqrtv _ _ (by norm_num) (by norm_num)
  have s9 : Real.sqrt 9 = 3 := sqrtv _ _ (by norm_num) (by norm_num)
  norm_num [reconstruct2Claimed, divPt, dotPt, vecNorm, sqNorm, s25, s9,
    harccos, matVec, persTransform, idMat3, Prod.mk_sub_mk,
    Real.cos_pi_div_two, Real.sin_pi_div_two]

/-- C7 counterexample: with unoccluded reference points `p0 = p1 = (0,0)`,
`q0 = (5,0)`, `q1 = (0,3)` (perpendicular unit vectors, so the unsigned
angle is `acos 0 = π/2`), occluded expected plane points `(1,0)` and
`(2,0)`, and the identity inverse homography, the code's result differs
from the claimed transform: the claimed rotation about `p1` by `π/2`
radians sends `(1,0)` to `(0,1)`, while the code multiplies by the 2x2
block of the OpenCV matrix for `π/2` *degrees*, yielding x-coordinate
`cos(π²/360) > 0`. -/
theorem C7_reconstruct2_counterexample :
    reconstruct2pp [(0, 0), (5, 0)] [(0, 0), (0, 3)] [(1, 0), (2, 0)]
      idMat3 ≠
    reconstruct2Claimed [(0, 0), (5, 0)] [(0, 0), (0, 3)] [(1, 0), (2, 0)]
      idMat3 := by
  rw [reconstruct2pp_eval, reconstruct2Claimed_eval]
  have hcos : 0 < Real.cos (Real.pi / 2 * Real.pi / 180) := by
    apply Real.cos_pos_of_mem_Ioo
    constructor
    · nlinarith [Real.pi_pos]
    · nlinarith [Real.pi_lt_d2, Real.pi_pos]
  intro h
  have h0 := congrArg (fun l => (List.getD l 0 ((0 : ℝ), (0 : ℝ))).1) h
  norm_num at h0
  linarith

/- ## A first frame whose raw corner list starts at the top-right corner -/

/-- Raw first-frame candidates in clockwise order starting at the top-right
corner of a 100x100 square: the minimal `x + y` corner `(0, 0)` sits at
index 3. -/
def rawTurn : List Pt := [(100, 0), (100, 100), (0, 100), (0, 0)]

/-- C8: on the very first frame with raw candidates `rawTurn`, the corner
labelled top-left is `(100, 0)` (the candidate at index 0, because
`np.argmin` applied to a generator always yields 0), although the candidate
`(0, 0)` has a strictly smaller coordinate sum — refuting the claim that
the top-left label goes to the candidate with minimal `x + y`. -/
theorem C8_first_frame_label_eval :
    ∃ st out, processFrame constSolve none rawTurn = Except.ok (st, out) ∧
      out.finalized = labelCorners rawTurn ∧
      (labelCorners rawTurn).getD 0 (0, 0) = (100, 0) ∧
      ∃ p ∈ rawTurn, p.1 + p.2 <
        ((labelCorners rawTurn).getD 0 (0, 0)).1 +
          ((labelCorners rawTurn).getD 0 (0, 0)).2 := by
  have hrun : processFrame constSolve none rawTurn = Except.ok
      (⟨labelCorners rawTurn,
        constSolve (labelCorners rawTurn) (canonicalRect (rawWidth rawTurn)),
        constSolve (canonicalRect (rawWidth rawTurn)) (labelCorners rawTurn)⟩,
       ⟨labelCorners rawTurn, labelCorners rawTurn,
        canonicalRect (rawWidth rawTurn), labelCorners rawTurn⟩) := by
    simp [processFrame, frameCore, Except.bind]
  refine ⟨_, _, hrun, rfl, ?_, ⟨(0, 0), ?_, ?_⟩⟩
  · norm_num [labelCorners, rawTurn, trIndex]
  · simp [rawTurn]
  · norm_num [labelCorners, rawTurn, trIndex]
